import Mathlib

/-!
Shallow embedding of the storage layer of the content-planner repository:
the JSON document reader/writer with digest and backup handling
(`src/unnamed/part_002`, the `db` module), the cached posts collection and
its atomic mutators (`src/backend/utils/db-cache.js`), the NDJSON audit
log (`appendLog` in the `db` module) and the in-memory session store
(`src/unnamed/part_001`, the `auth` middleware).

JavaScript strings are modelled as Lean `String`s, file contents as
`Option String` (`none` = the file is absent / read raises ENOENT),
`JSON.stringify`/`JSON.parse` and the SHA-256 hash as explicit function
parameters (`ser`, `parse`, `hash`): the claims under study concern the
control flow around these primitives, not their internals.
-/

namespace ContentPlanner

/-! ### Character-list string helpers

Kernel-computable models of the JavaScript string operations the source
uses: `String.prototype.split` on a single-character separator, `Number`
on digit strings, and `String.prototype.trim`. -/

/-- `s.split(sep)` for a one-character separator, on the character list of
the string.  Splitting the empty list yields `[[]]`, as in JavaScript
(`"".split(c)` is `[""]`). -/
def splitOnChar (sep : Char) : List Char → List (List Char)
  | [] => [[]]
  | c :: cs =>
    let rest := splitOnChar sep cs
    if c = sep then [] :: rest
    else
      match rest with
      | [] => [[c]]
      | h :: t => (c :: h) :: t

/-- Decimal value of one digit character. -/
def digitVal (c : Char) : Option Nat :=
  if c.isDigit then some (c.toNat - 48) else none

def numValAux : List Char → Nat → Option Nat
  | [], acc => some acc
  | c :: cs, acc =>
    match digitVal c with
    | some d => numValAux cs (acc * 10 + d)
    | none => none

/-- JavaScript `Number(s)` restricted to non-negative decimal strings:
`some` of the value on digit-only strings (with `Number("") = 0`),
`none` (NaN) when a non-digit occurs. -/
def numVal (s : List Char) : Option Nat := numValAux s 0

/-- JavaScript `String.prototype.trim`: strip whitespace at both ends. -/
def trimStr (s : String) : String :=
  ⟨((s.data.dropWhile Char.isWhitespace).reverse.dropWhile Char.isWhitespace).reverse⟩

/-! ### Posts and the sort comparator (`src/backend/utils/db-cache.js`)

Every writer in `db-cache.js` except `atomicDeletePost` sorts the
collection with the comparator

```
(a, b) => {
  const da = new Date(a.date).getTime();
  const db = new Date(b.date).getTime();
  if (da !== db) return da - db;
  const ta = (a.time || '00:00').split(':').map(Number);
  const tb = (b.time || '00:00').split(':').map(Number);
  return ta[0] * 60 + ta[1] - (tb[0] * 60 + tb[1]);
}
```

`Array.prototype.sort` is stable, so the write order is the unique stable
ordering by the key (date, minutes-of-day). -/

/-- A post as the storage layer sees it: an identifier, an ISO `date`
string, an optional `time` string (`none` = field absent), and the
all-day flag.  Other fields (status, names, …) play no role in the
storage layer and are omitted. -/
structure Post where
  id : Nat
  date : String
  time : Option String := none
  isAllDay : Bool := false
  deriving Repr, DecidableEq, Inhabited

/-- Model of `new Date(s).getTime()` on ISO `YYYY-MM-DD` dates, as the
order-isomorphic key `y * 10000 + m * 100 + d`: the comparator only uses
equality and order of the timestamps, which this key preserves on valid
calendar dates.  Malformed dates map to `0` (claims are stated on
well-formed dates). -/
def dateKey (s : String) : Nat :=
  match (splitOnChar (Char.ofNat 45) s.data).map numVal with
  | [some y, some m, some d] => y * 10000 + m * 100 + d
  | _ => 0

/-- `(a.time || '00:00')`: an absent or empty time string defaults to
midnight. -/
def timeString (t : Option String) : String :=
  match t with
  | none => "00:00"
  | some s => if s = "" then "00:00" else s

/-- `ta[0] * 60 + ta[1]` on `(a.time || '00:00').split(':').map(Number)`. -/
def minutesOf (t : Option String) : Nat :=
  match (splitOnChar (Char.ofNat 58) (timeString t).data).map numVal with
  | some h :: some m :: _ => h * 60 + m
  | _ => 0

/-- The comparator's "a sorts no later than b": strictly earlier date, or
same date key and no larger minutes-of-day. -/
def postLE (a b : Post) : Prop :=
  dateKey a.date < dateKey b.date ∨
    (dateKey a.date = dateKey b.date ∧ minutesOf a.time ≤ minutesOf b.time)

instance : DecidableRel postLE := fun a b => by
  unfold postLE; infer_instance

instance : IsTotal Post postLE where
  total a b := by
    rcases Nat.lt_trichotomy (dateKey a.date) (dateKey b.date) with h | h | h
    · exact Or.inl (Or.inl h)
    · rcases Nat.le_total (minutesOf a.time) (minutesOf b.time) with h2 | h2
      · exact Or.inl (Or.inr ⟨h, h2⟩)
      · exact Or.inr (Or.inr ⟨h.symm, h2⟩)
    · exact Or.inr (Or.inl h)

instance : IsTrans Post postLE where
  trans a b c hab hbc := by
    rcases hab with h1 | ⟨e1, m1⟩
    · rcases hbc with h2 | ⟨e2, _⟩
      · exact Or.inl (Nat.lt_trans h1 h2)
      · exact Or.inl (e2 ▸ h1)
    · rcases hbc with h2 | ⟨e2, m2⟩
      · exact Or.inl (e1 ▸ h2)
      · exact Or.inr ⟨e1.trans e2, Nat.le_trans m1 m2⟩

/-- The stable sort every posts writer applies (`posts.sort(comparator)`;
`Array.prototype.sort` is stable, and a stable sort by a total preorder
is unique, so insertion sort gives the same list). -/
def sortPosts (l : List Post) : List Post := List.insertionSort postLE l

/-- A post counts as all-day when it carries no time or is flagged
all-day (the spec's "no time / isAllDay"). -/
def isAllDayPost (p : Post) : Bool := p.time.isNone || p.isAllDay

/-- The ordering property claimed by the spec: within one date, every
all-day entry comes before every timed entry — i.e. for every
earlier/later pair on the same date, if the later one is all-day then so
is the earlier one. -/
def allDayFirstWithinDate (l : List Post) : Prop :=
  l.Pairwise fun a b => a.date = b.date → isAllDayPost b = true → isAllDayPost a = true

instance (l : List Post) : Decidable (allDayFirstWithinDate l) := by
  unfold allDayFirstWithinDate; infer_instance

/-! ### On-disk document state and `readJSON` / `writeJSON`
(`src/unnamed/part_002`, the `db` module)

A document lives at a path with two sibling files: `path.sha256` (the
digest of the exact serialized bytes) and `path.backup` (the previous
content).  `none` models an absent file. -/

structure DocState where
  file : Option String
  digest : Option String
  backup : Option String
  deriving Repr, DecidableEq

/-- Result of `readJSON`: JavaScript `null` (missing file or literal
null), a parsed value, or a thrown error. -/
inductive ReadResult (α : Type) where
  | nullVal
  | value (v : α)
  | thrown
  deriving Repr, DecidableEq

/-- `JSON.parse(s || 'null')`: the empty string parses to `null`;
otherwise `parse` either yields a value or throws. -/
def parseJS (parse : String → Option α) (s : String) : ReadResult α :=
  if s = "" then .nullVal
  else
    match parse s with
    | some v => .value v
    | none => .thrown

/-- `readJSON(filePath)`.  Returns the read result together with a flag
recording whether the CHECKSUM MISMATCH corruption error was logged.

Control flow of the source: ENOENT on the primary returns `null`; if a
digest file exists its trimmed content is compared against the hash of
the primary bytes; on mismatch the backup is read and parsed, and on any
backup failure (missing or unparseable) the primary is parsed instead;
when the digest matches or no digest file exists, the primary is parsed
directly.  A parse error on the primary is thrown to the caller (its
error has no `code`, so the ENOENT guard rethrows it). -/
def readJSON (hash : String → String) (parse : String → Option α)
    (st : DocState) : ReadResult α × Bool :=
  match st.file with
  | none => (.nullVal, false)
  | some data =>
    match st.digest with
    | none => (parseJS parse data, false)
    | some stored =>
      if trimStr stored = hash data then (parseJS parse data, false)
      else
        match st.backup with
        | some bdata =>
          match parseJS parse bdata with
          | .thrown => (parseJS parse data, true)
          | r => (r, true)
        | none => (parseJS parse data, true)

/-- Which way a call to `writeJSON` went.  The first three are the
completed locked paths (plain renames; EXDEV rename failure repaired by
copy; ENOENT rename failure repaired by direct write) — all three leave
the same final disk state.  `lockFail` is the outer catch: the try block
threw at lock acquisition (before the backup copy), and a direct
unlocked write is attempted, which itself succeeds or fails. -/
inductive WriteBranch where
  | normal
  | exdev
  | tmpMissing
  | lockFail (directOk : Bool)
  deriving Repr, DecidableEq

/-- The error `writeJSON` can propagate: the original lock-acquisition
error, rethrown when the unlocked fallback write also fails. -/
inductive WriteErr where
  | lockTimeout
  deriving Repr, DecidableEq

/-- "Create backup of existing file before overwriting": copy the current
content to `path.backup`, ignoring the error when the file does not
exist yet. -/
def backupStep (st : DocState) : DocState :=
  match st.file with
  | some c => { st with backup := some c }
  | none => st

/-- `writeJSON(filePath, data)`: serialize, hash the payload, back up the
existing file, write payload and digest to temp files and rename both
into place.  On the lock-failure path the backup copy never ran; the
fallback writes payload and digest directly, and if that also fails the
original error is rethrown. -/
def writeJSON (ser : α → String) (hash : String → String) (br : WriteBranch)
    (data : α) (st : DocState) : Except WriteErr DocState :=
  let payload := ser data
  let checksum := hash payload
  match br with
  | .normal =>
    .ok { backupStep st with file := some payload, digest := some checksum }
  | .exdev =>
    .ok { backupStep st with file := some payload, digest := some checksum }
  | .tmpMissing =>
    .ok { backupStep st with file := some payload, digest := some checksum }
  | .lockFail directOk =>
    if directOk then .ok { st with file := some payload, digest := some checksum }
    else .error .lockTimeout

/-! ### The cached posts collection (`src/backend/utils/db-cache.js`)

Module state: `postsCache` (`null` or the posts array) and
`cacheVersion`, next to the on-disk document.  The optimized writers
write `posts.json` and `posts.json.sha256` via temp files and renames but
never touch `posts.json.backup`. -/

structure DbState where
  doc : DocState
  cache : Option (List Post)
  cacheVersion : Nat
  deriving Repr, DecidableEq

/-- Outcome of the disk portion of an optimized write: `success`, or
`failure` leaving behind whatever the interrupted temp-write/rename
sequence produced (over-approximated by arbitrary resulting file and
digest contents). -/
inductive WriteOutcome where
  | success
  | failure (dfile ddigest : Option String)
  deriving Repr, DecidableEq

/-- Result of a db-cache operation: a completed write returning the
persisted collection, the domain-level `{success: false, error: 'Post
not found'}`, or any other `{success: false}` / thrown failure. -/
inductive OpResult where
  | okWrite (allPosts : List Post)
  | notFound
  | errored
  deriving Repr, DecidableEq

def OpResult.isOk : OpResult → Bool
  | .okWrite _ => true
  | _ => false

/-- `JSON.parse(data || '[]')` specialised to a posts array. -/
def parsePostsJS (parse : String → Option (List Post)) (data : String) :
    Option (List Post) :=
  parse (if data = "" then "[]" else data)

/-- `readPostsOptimized()`: serve the cache when warm; otherwise read
`posts.json` directly (no digest verification), parse it, fill the cache
and bump the version.  ENOENT yields the empty collection and caches it
(without a version bump); a parse error is rethrown (`.error`). -/
def readPostsOptimized (parse : String → Option (List Post)) (st : DbState) :
    Except Unit (List Post) × DbState :=
  match st.cache with
  | some c => (.ok c, st)
  | none =>
    match st.doc.file with
    | none => (.ok [], { st with cache := some [] })
    | some data =>
      match parsePostsJS parse data with
      | some posts =>
        (.ok posts, { st with cache := some posts, cacheVersion := st.cacheVersion + 1 })
      | none => (.error (), st)

/-- `invalidateCache()`. -/
def invalidateCache (st : DbState) : DbState :=
  { st with cache := none, cacheVersion := st.cacheVersion + 1 }

/-- `writePostsOptimized(posts)`: sort, lock, write payload and digest via
temp files and renames, update the cache.  On failure the error is
rethrown after `invalidateCache()`.  The backup file is not written. -/
def writePostsOptimized (ser : List Post → String) (hash : String → String)
    (posts : List Post) (o : WriteOutcome) (st : DbState) : OpResult × DbState :=
  let sorted := sortPosts posts
  match o with
  | .success =>
    let payload := ser sorted
    (.okWrite sorted,
      { st with
          doc := { st.doc with file := some payload, digest := some (hash payload) },
          cache := some sorted, cacheVersion := st.cacheVersion + 1 })
  | .failure df dd =>
    (.errored, invalidateCache { st with doc := { st.doc with file := df, digest := dd } })

/-- `Array.prototype.findIndex`, as an optional index. -/
def findIndex (f : Post → Bool) : List Post → Option Nat
  | [] => none
  | p :: ps => if f p then some 0 else (findIndex f ps).map (· + 1)

/-- `atomicUpdatePost(postId, updateFn)`: lock, read and parse the file
(`{success: false}` with cache invalidation on read/parse failure),
return not-found without writing when the id is absent, else apply
`updateFn`, re-sort, write payload and digest, update the cache.  On a
write failure the cache is invalidated and `{success: false}` returned. -/
def atomicUpdatePost (ser : List Post → String) (hash : String → String)
    (parse : String → Option (List Post)) (postId : Nat) (updateFn : Post → Post)
    (o : WriteOutcome) (st : DbState) : OpResult × DbState :=
  match st.doc.file with
  | none => (.errored, invalidateCache st)
  | some data =>
    match parsePostsJS parse data with
    | none => (.errored, invalidateCache st)
    | some posts =>
      match findIndex (fun p => p.id == postId) posts with
      | none => (.notFound, st)
      | some idx =>
        let posts2 := posts.set idx (updateFn (posts.getD idx default))
        let sorted := sortPosts posts2
        match o with
        | .success =>
          let payload := ser sorted
          (.okWrite sorted,
            { st with
                doc := { st.doc with file := some payload, digest := some (hash payload) },
                cache := some sorted, cacheVersion := st.cacheVersion + 1 })
        | .failure df dd =>
          (.errored, invalidateCache { st with doc := { st.doc with file := df, digest := dd } })

/-- `atomicDeletePost(postId)`: like update, but splices the post out and
writes without re-sorting. -/
def atomicDeletePost (ser : List Post → String) (hash : String → String)
    (parse : String → Option (List Post)) (postId : Nat)
    (o : WriteOutcome) (st : DbState) : OpResult × DbState :=
  match st.doc.file with
  | none => (.errored, invalidateCache st)
  | some data =>
    match parsePostsJS parse data with
    | none => (.errored, invalidateCache st)
    | some posts =>
      match findIndex (fun p => p.id == postId) posts with
      | none => (.notFound, st)
      | some idx =>
        let posts2 := posts.eraseIdx idx
        match o with
        | .success =>
          let payload := ser posts2
          (.okWrite posts2,
            { st with
                doc := { st.doc with file := some payload, digest := some (hash payload) },
                cache := some posts2, cacheVersion := st.cacheVersion + 1 })
        | .failure df dd =>
          (.errored, invalidateCache { st with doc := { st.doc with file := df, digest := dd } })

/-- `atomicCreatePost(newPost)`: lock, read and parse, push the new post,
re-sort, write payload and digest, update the cache. -/
def atomicCreatePost (ser : List Post → String) (hash : String → String)
    (parse : String → Option (List Post)) (newPost : Post)
    (o : WriteOutcome) (st : DbState) : OpResult × DbState :=
  match st.doc.file with
  | none => (.errored, invalidateCache st)
  | some data =>
    match parsePostsJS parse data with
    | none => (.errored, invalidateCache st)
    | some posts =>
      let sorted := sortPosts (posts ++ [newPost])
      match o with
      | .success =>
        let payload := ser sorted
        (.okWrite sorted,
          { st with
              doc := { st.doc with file := some payload, digest := some (hash payload) },
              cache := some sorted, cacheVersion := st.cacheVersion + 1 })
      | .failure df dd =>
        (.errored, invalidateCache { st with doc := { st.doc with file := df, digest := dd } })

/-! ### Sequences of writes to the posts document -/

/-- One write operation against the posts document, with its
nondeterministic environment outcome baked in. -/
inductive DbOp where
  | wjson (br : WriteBranch) (posts : List Post)
  | wopt (posts : List Post) (o : WriteOutcome)
  | create (p : Post) (o : WriteOutcome)
  | update (postId : Nat) (fn : Post → Post) (o : WriteOutcome)
  | delete (postId : Nat) (o : WriteOutcome)

/-- The operations that go through the db-cache module (and so invalidate
`postsCache` on failure); `writeJSON` is the cache-unaware generic
writer. -/
def DbOp.isCacheAware : DbOp → Bool
  | .wjson _ _ => false
  | _ => true

def applyOp (ser : List Post → String) (hash : String → String)
    (parse : String → Option (List Post)) : DbOp → DbState → OpResult × DbState
  | .wjson br posts, st =>
    match writeJSON ser hash br posts st.doc with
    | .ok doc2 => (.okWrite posts, { st with doc := doc2 })
    | .error _ => (.errored, st)
  | .wopt posts o, st => writePostsOptimized ser hash posts o st
  | .create p o, st => atomicCreatePost ser hash parse p o st
  | .update postId fn o, st => atomicUpdatePost ser hash parse postId fn o st
  | .delete postId o, st => atomicDeletePost ser hash parse postId o st

def runOps (ser : List Post → String) (hash : String → String)
    (parse : String → Option (List Post)) (ops : List DbOp) (st : DbState) : DbState :=
  ops.foldl (fun s op => (applyOp ser hash parse op s).2) st

/-- The digest invariant: the document and its digest file both exist and
the digest is exactly the hash of the document bytes. -/
def digestMatches (hash : String → String) (d : DocState) : Prop :=
  ∃ p, d.file = some p ∧ d.digest = some (hash p)

/-! ### The NDJSON audit log (`appendLog` in the `db` module)

`appendLog(entry)` builds `Object.assign({ id: genId(), time: now },
entry)` — the generated id and timestamp are the *first* argument of
`Object.assign`, so properties of the caller's `entry` override them —
serializes the record as one JSON line and appends it under the fast
lock. -/

/-- A caller-supplied log entry.  `id` and `time` are `some` exactly when
the caller's object carries those properties. -/
structure LogEntry where
  id : Option String := none
  time : Option Nat := none
  actor : String := ""
  action : String := ""
  details : String := ""
  deriving Repr, DecidableEq

/-- The record written to the log. -/
structure LogRecord where
  id : String
  time : Nat
  actor : String
  action : String
  details : String
  deriving Repr, DecidableEq

/-- `Object.assign({ id: genId(), time: now }, entry)`: start from the
generated id and timestamp, then copy every property of `entry` over
them. -/
def mkLogRecord (generatedId : String) (now : Nat) (e : LogEntry) : LogRecord :=
  { id := e.id.getD generatedId
    time := e.time.getD now
    actor := e.actor
    action := e.action
    details := e.details }

/-- `appendLog(entry)` on the success path: returns the written record
and the new log file content, `JSON.stringify(out) + '\n'` appended. -/
def appendLog (serRec : LogRecord → String) (generatedId : String) (now : Nat)
    (e : LogEntry) (logFile : String) : LogRecord × String :=
  let out := mkLogRecord generatedId now e
  let line := serRec out ++ "\n"
  (out, logFile ++ line)

/-! ### The in-memory session store (`src/unnamed/part_001`)

`sessions` is a `Map` from token to `{username, role, expires}`, modelled
as an association list with distinct keys; `persistSessions` mirrors it
to disk through `writeJSON` (swallowing write errors), and
`requireAuth`'s token paths look tokens up in the map. -/

structure Session where
  username : String
  role : String
  expires : Nat
  deriving Repr, DecidableEq

structure PersistedSession where
  token : String
  username : String
  role : String
  expires : Nat
  deriving Repr, DecidableEq

structure AuthState where
  sessions : List (String × Session)
  disk : Option (List PersistedSession)
  deriving Repr, DecidableEq

/-- `Array.from(sessions.entries()).map(([token, obj]) => ({ token,
...obj }))`. -/
def sessionsArray (tbl : List (String × Session)) : List PersistedSession :=
  tbl.map fun ts =>
    { token := ts.1, username := ts.2.username, role := ts.2.role, expires := ts.2.expires }

/-- `persistSessions()`: write the serialized table to the sessions
document; a failing `writeJSON` is caught and logged, leaving the disk
mirror as it was (`ok = false`). -/
def persistSessions (ok : Bool) (st : AuthState) : AuthState :=
  if ok then { st with disk := some (sessionsArray st.sessions) } else st

/-- `revokeSessionsForUser(username)`: delete every session of the user
from the map, then `await persistSessions()`. -/
def revokeSessionsForUser (username : String) (ok : Bool) (st : AuthState) : AuthState :=
  persistSessions ok { st with sessions := st.sessions.filter fun ts => ts.2.username != username }

/-- `sessions.get(token)`. -/
def lookupSession (tbl : List (String × Session)) (token : String) : Option Session :=
  (tbl.find? fun ts => ts.1 == token).map Prod.snd

/-- Outcome of the session-token paths of `requireAuth`. -/
inductive AuthCheck where
  | authorized (username role : String)
  | unauthorized
  deriving Repr, DecidableEq

/-- The session-token check of `requireAuth` (cookie and `x-user-token`
paths are identical): the token must be in the map and unexpired
(`session.expires > Date.now()`), else 401 "Invalid or expired
session". -/
def requireAuthToken (st : AuthState) (token : String) (now : Nat) : AuthCheck :=
  match lookupSession st.sessions token with
  | some s => if now < s.expires then .authorized s.username s.role else .unauthorized
  | none => .unauthorized

/-! ## Theorems -/

/-- Every operation that completes a write leaves `file = ser l` and
`digest = hash (ser l)` for the collection `l` it reports, regardless of
the branch taken. -/
theorem applyOp_ok_digest (ser : List Post → String) (hash : String → String)
    (parse : String → Option (List Post)) (op : DbOp) (st : DbState)
    (hok : (applyOp ser hash parse op st).1.isOk = true) :
    digestMatches hash (applyOp ser hash parse op st).2.doc := by
  cases op with
  | wjson br posts =>
    cases br with
    | normal => exact ⟨ser posts, rfl, rfl⟩
    | exdev => exact ⟨ser posts, rfl, rfl⟩
    | tmpMissing => exact ⟨ser posts, rfl, rfl⟩
    | lockFail directOk =>
      cases directOk with
      | true => exact ⟨ser posts, rfl, rfl⟩
      | false => simp [applyOp, writeJSON, OpResult.isOk] at hok
  | wopt posts o =>
    cases o with
    | success => exact ⟨ser (sortPosts posts), rfl, rfl⟩
    | failure df dd => simp [applyOp, writePostsOptimized, OpResult.isOk] at hok
  | create p o =>
    cases hf : st.doc.file with
    | none => simp [applyOp, atomicCreatePost, hf, OpResult.isOk] at hok
    | some data =>
      cases hp : parsePostsJS parse data with
      | none => simp [applyOp, atomicCreatePost, hf, hp, OpResult.isOk] at hok
      | some posts =>
        cases o with
        | success =>
          refine ⟨ser (sortPosts (posts ++ [p])), ?_, ?_⟩ <;>
            simp [applyOp, atomicCreatePost, hf, hp]
        | failure df dd => simp [applyOp, atomicCreatePost, hf, hp, OpResult.isOk] at hok
  | update postId fn o =>
    cases hf : st.doc.file with
    | none => simp [applyOp, atomicUpdatePost, hf, OpResult.isOk] at hok
    | some data =>
      cases hp : parsePostsJS parse data with
      | none => simp [applyOp, atomicUpdatePost, hf, hp, OpResult.isOk] at hok
      | some posts =>
        cases hidx : findIndex (fun q => q.id == postId) posts with
        | none => simp [applyOp, atomicUpdatePost, hf, hp, hidx, OpResult.isOk] at hok
        | some idx =>
          cases o with
          | success =>
            refine ⟨ser (sortPosts (posts.set idx (fn (posts.getD idx default)))), ?_, ?_⟩ <;>
              simp [applyOp, atomicUpdatePost, hf, hp, hidx]
          | failure df dd =>
            simp [applyOp, atomicUpdatePost, hf, hp, hidx, OpResult.isOk] at hok
  | delete postId o =>
    cases hf : st.doc.file with
    | none => simp [applyOp, atomicDeletePost, hf, OpResult.isOk] at hok
    | some data =>
      cases hp : parsePostsJS parse data with
      | none => simp [applyOp, atomicDeletePost, hf, hp, OpResult.isOk] at hok
      | some posts =>
        cases hidx : findIndex (fun q => q.id == postId) posts with
        | none => simp [applyOp, atomicDeletePost, hf, hp, hidx, OpResult.isOk] at hok
        | some idx =>
          cases o with
          | success =>
            refine ⟨ser (posts.eraseIdx idx), ?_, ?_⟩ <;>
              simp [applyOp, atomicDeletePost, hf, hp, hidx]
          | failure df dd =>
            simp [applyOp, atomicDeletePost, hf, hp, hidx, OpResult.isOk] at hok

/-- Running one more operation of a sequence is applying it to the state
after the prefix. -/
theorem runOps_take_succ (ser : List Post → String) (hash : String → String)
    (parse : String → Option (List Post)) (ops : List DbOp) (st : DbState)
    (i : Nat) (hi : i < ops.length) :
    runOps ser hash parse (ops.take (i + 1)) st =
      (applyOp ser hash parse (ops.get ⟨i, hi⟩)
        (runOps ser hash parse (ops.take i) st)).2 := by
  unfold runOps
  rw [List.take_succ, List.foldl_append, List.getElem?_eq_getElem hi]
  simp [List.get_eq_getElem]

/-- C1.  For every sequence of writes to the posts document through
`writeJSON`, `writePostsOptimized`, `atomicCreatePost`,
`atomicUpdatePost` or `atomicDeletePost`, after each write that returns
successfully the on-disk digest file holds exactly the hash of the
on-disk document bytes: document and digest are never mismatched once a
write has completed. -/
theorem digest_matches_after_each_completed_write (ser : List Post → String)
    (hash : String → String) (parse : String → Option (List Post))
    (ops : List DbOp) (st : DbState) (i : Nat) (hi : i < ops.length)
    (hok : (applyOp ser hash parse (ops.get ⟨i, hi⟩)
        (runOps ser hash parse (ops.take i) st)).1.isOk = true) :
    digestMatches hash (runOps ser hash parse (ops.take (i + 1)) st).doc := by
  rw [runOps_take_succ ser hash parse ops st i hi]
  exact applyOp_ok_digest ser hash parse _ _ hok

/-- Concrete instance of C1: one successful optimized write from the
empty state. -/
theorem digest_matches_after_each_completed_write_witness :
    digestMatches (fun _ => "h")
      (runOps (fun _ => "p") (fun _ => "h") (fun _ => some [])
        (List.take 1 [DbOp.wopt [] .success])
        ⟨⟨none, none, none⟩, none, 0⟩).doc :=
  digest_matches_after_each_completed_write (fun _ => "p") (fun _ => "h")
    (fun _ => some []) [DbOp.wopt [] .success] ⟨⟨none, none, none⟩, none, 0⟩ 0
    (by decide) (by decide)

theorem findIndex_eq_none_of_absent (postId : Nat) (posts : List Post)
    (habs : ∀ p ∈ posts, p.id ≠ postId) :
    findIndex (fun p => p.id == postId) posts = none := by
  induction posts with
  | nil => rfl
  | cons q qs ih =>
    have hq : (q.id == postId) = false := by
      simpa using habs q (List.mem_cons_self q qs)
    simp [findIndex, hq, ih fun p hp => habs p (List.mem_cons_of_mem q hp)]

/-- C3.  On a readable, parseable collection whose ids do not include the
requested one, `atomicUpdatePost` and `atomicDeletePost` return the
domain-level not-found result — not a thrown error — and leave the
entire state, in particular the on-disk collection file, byte-for-byte
unchanged. -/
theorem mutate_missing_id_not_found_unchanged (ser : List Post → String)
    (hash : String → String) (parse : String → Option (List Post))
    (postId : Nat) (fn : Post → Post) (o : WriteOutcome) (st : DbState)
    (data : String) (posts : List Post)
    (hfile : st.doc.file = some data)
    (hparse : parsePostsJS parse data = some posts)
    (habs : ∀ p ∈ posts, p.id ≠ postId) :
    atomicUpdatePost ser hash parse postId fn o st = (.notFound, st) ∧
    atomicDeletePost ser hash parse postId o st = (.notFound, st) := by
  have hidx := findIndex_eq_none_of_absent postId posts habs
  constructor <;> simp [atomicUpdatePost, atomicDeletePost, hfile, hparse, hidx]

/-- Concrete instance of C3: deleting or updating id 5 in a one-post
collection. -/
theorem mutate_missing_id_not_found_unchanged_witness :
    atomicUpdatePost (fun _ => "p") (fun _ => "h")
        (fun s => if s = "[1]" then some [{ id := 1, date := "2026-01-01" }] else none)
        5 id .success ⟨⟨some "[1]", none, none⟩, none, 0⟩ =
      (.notFound, ⟨⟨some "[1]", none, none⟩, none, 0⟩) ∧
    atomicDeletePost (fun _ => "p") (fun _ => "h")
        (fun s => if s = "[1]" then some [{ id := 1, date := "2026-01-01" }] else none)
        5 .success ⟨⟨some "[1]", none, none⟩, none, 0⟩ =
      (.notFound, ⟨⟨some "[1]", none, none⟩, none, 0⟩) :=
  mutate_missing_id_not_found_unchanged (fun _ => "p") (fun _ => "h")
    (fun s => if s = "[1]" then some [{ id := 1, date := "2026-01-01" }] else none)
    5 id .success ⟨⟨some "[1]", none, none⟩, none, 0⟩ "[1]"
    [{ id := 1, date := "2026-01-01" }] (by rfl) (by decide) (by decide)

/-- The result `read` derives from the on-disk document alone: the empty
collection if the file is absent, its parse if it parses, a propagated
error otherwise. -/
def diskPosts (parse : String → Option (List Post)) (d : DocState) :
    Except Unit (List Post) :=
  match d.file with
  | none => .ok []
  | some data =>
    match parsePostsJS parse data with
    | some posts => .ok posts
    | none => .error ()

/-- With a cold cache, `readPostsOptimized` returns exactly the
disk-derived view. -/
theorem readPosts_cold_cache (parse : String → Option (List Post)) (st : DbState)
    (hc : st.cache = none) :
    (readPostsOptimized parse st).1 = diskPosts parse st.doc := by
  cases hf : st.doc.file with
  | none => simp [readPostsOptimized, diskPosts, hc, hf]
  | some data =>
    cases hp : parsePostsJS parse data with
    | none => simp [readPostsOptimized, diskPosts, hc, hf, hp]
    | some posts => simp [readPostsOptimized, diskPosts, hc, hf, hp]

/-- C4.  Whenever `writePostsOptimized` or one of the atomic mutators
fails, the in-memory cache is invalidated (`postsCache = null`), so the
next `readPostsOptimized` call derives its result from the on-disk file
rather than serving the pre-failure in-memory snapshot. -/
theorem failed_write_invalidates_cache (ser : List Post → String)
    (hash : String → String) (parse : String → Option (List Post))
    (op : DbOp) (st : DbState)
    (hca : op.isCacheAware = true)
    (herr : (applyOp ser hash parse op st).1 = .errored) :
    (applyOp ser hash parse op st).2.cache = none ∧
    (readPostsOptimized parse (applyOp ser hash parse op st).2).1 =
      diskPosts parse (applyOp ser hash parse op st).2.doc := by
  have hcache : (applyOp ser hash parse op st).2.cache = none := by
    cases op with
    | wjson br posts => simp [DbOp.isCacheAware] at hca
    | wopt posts o =>
      cases o with
      | success => simp [applyOp, writePostsOptimized] at herr
      | failure df dd => simp [applyOp, writePostsOptimized, invalidateCache]
    | create p o =>
      cases hf : st.doc.file with
      | none => simp [applyOp, atomicCreatePost, hf, invalidateCache]
      | some data =>
        cases hp : parsePostsJS parse data with
        | none => simp [applyOp, atomicCreatePost, hf, hp, invalidateCache]
        | some posts =>
          cases o with
          | success => simp [applyOp, atomicCreatePost, hf, hp] at herr
          | failure df dd => simp [applyOp, atomicCreatePost, hf, hp, invalidateCache]
    | update postId fn o =>
      cases hf : st.doc.file with
      | none => simp [applyOp, atomicUpdatePost, hf, invalidateCache]
      | some data =>
        cases hp : parsePostsJS parse data with
        | none => simp [applyOp, atomicUpdatePost, hf, hp, invalidateCache]
        | some posts =>
          cases hidx : findIndex (fun q => q.id == postId) posts with
          | none => simp [applyOp, atomicUpdatePost, hf, hp, hidx] at herr
          | some idx =>
            cases o with
            | success => simp [applyOp, atomicUpdatePost, hf, hp, hidx] at herr
            | failure df dd => simp [applyOp, atomicUpdatePost, hf, hp, hidx, invalidateCache]
    | delete postId o =>
      cases hf : st.doc.file with
      | none => simp [applyOp, atomicDeletePost, hf, invalidateCache]
      | some data =>
        cases hp : parsePostsJS parse data with
        | none => simp [applyOp, atomicDeletePost, hf, hp, invalidateCache]
        | some posts =>
          cases hidx : findIndex (fun q => q.id == postId) posts with
          | none => simp [applyOp, atomicDeletePost, hf, hp, hidx] at herr
          | some idx =>
            cases o with
            | success => simp [applyOp, atomicDeletePost, hf, hp, hidx] at herr
            | failure df dd => simp [applyOp, atomicDeletePost, hf, hp, hidx, invalidateCache]
  exact ⟨hcache, readPosts_cold_cache parse _ hcache⟩

/-- Concrete instance of C4: a failed optimized write invalidates the
warm cache, and the next read serves the (empty) disk state. -/
theorem failed_write_invalidates_cache_witness :
    (applyOp (fun _ => "p") (fun _ => "h") (fun _ => some [])
        (.wopt [] (.failure none none))
        ⟨⟨some "x", none, none⟩, some [{ id := 1, date := "2026-01-01" }], 3⟩).2.cache = none ∧
    (readPostsOptimized (fun _ => some [])
        (applyOp (fun _ => "p") (fun _ => "h") (fun _ => some [])
          (.wopt [] (.failure none none))
          ⟨⟨some "x", none, none⟩, some [{ id := 1, date := "2026-01-01" }], 3⟩).2).1 =
      diskPosts (fun _ => some [])
        (applyOp (fun _ => "p") (fun _ => "h") (fun _ => some [])
          (.wopt [] (.failure none none))
          ⟨⟨some "x", none, none⟩, some [{ id := 1, date := "2026-01-01" }], 3⟩).2.doc :=
  failed_write_invalidates_cache (fun _ => "p") (fun _ => "h") (fun _ => some [])
    (.wopt [] (.failure none none))
    ⟨⟨some "x", none, none⟩, some [{ id := 1, date := "2026-01-01" }], 3⟩
    (by decide) (by decide)

/-- C10.  With an empty cache and no collection file on disk (ENOENT),
`readPostsOptimized` returns the empty array — not `null` as the generic
`readJSON` does — raises no error, and records the empty collection as
the cached value; any other read failure (a file that does not parse) is
propagated to the caller. -/
theorem read_missing_file_empty_and_cached (parse : String → Option (List Post))
    (st st2 : DbState) (data : String)
    (hc : st.cache = none) (hf : st.doc.file = none)
    (hc2 : st2.cache = none) (hf2 : st2.doc.file = some data)
    (hpf : parsePostsJS parse data = none) :
    readPostsOptimized parse st = (.ok [], { st with cache := some [] }) ∧
    readPostsOptimized parse st2 = (.error (), st2) := by
  constructor
  · simp [readPostsOptimized, hc, hf]
  · simp [readPostsOptimized, hc2, hf2, hpf]

/-- Concrete instance of C10: reading from an empty state yields the
cached empty collection; reading an unparseable file propagates the
error. -/
theorem read_missing_file_empty_and_cached_witness :
    readPostsOptimized (fun _ => none) ⟨⟨none, none, none⟩, none, 0⟩ =
      (.ok [], ⟨⟨none, none, none⟩, some [], 0⟩) ∧
    readPostsOptimized (fun _ => none) ⟨⟨some "garbage", none, none⟩, none, 0⟩ =
      (.error (), ⟨⟨some "garbage", none, none⟩, none, 0⟩) :=
  read_missing_file_empty_and_cached (fun _ => none)
    ⟨⟨none, none, none⟩, none, 0⟩ ⟨⟨some "garbage", none, none⟩, none, 0⟩ "garbage"
    (by rfl) (by rfl) (by rfl) (by rfl) (by rfl)

/-- C2, counterexample.  A primary file that fails to parse while its
digest file matches its bytes: the claim says the parseable backup is
returned, but `readJSON` throws the parse error — the backup-fallback
branch is only reachable on a digest mismatch.  (Hash modelled by the
identity on this input; the digest file holds exactly the primary
bytes.) -/
theorem read_parse_failure_no_backup_cex :
    readJSON (fun s => s) (fun s => if s = "good" then some 1 else none)
        ⟨some "bad", some "bad", some "good"⟩ = (.thrown, false) ∧
    parseJS (fun s => if s = "good" then some 1 else none) "good" = .value 1 := by
  decide

/-- C2, amended.  On a digest mismatch with a parseable backup,
`readJSON` returns the backup's parsed content and logs the corruption;
but a primary parse failure with a matching (or absent) digest file is
propagated to the caller — the backup fallback fires only on digest
mismatch. -/
theorem read_backup_fallback_on_mismatch {α : Type} (hash : String → String)
    (parse : String → Option α) (st st2 : DocState)
    (data stored bdata data2 stored2 : String) (v : α)
    (hfile : st.file = some data) (hdig : st.digest = some stored)
    (hmm : trimStr stored ≠ hash data)
    (hb : st.backup = some bdata) (hbp : parseJS parse bdata = .value v)
    (hfile2 : st2.file = some data2)
    (hdig2 : st2.digest = none ∨ (st2.digest = some stored2 ∧ trimStr stored2 = hash data2))
    (hpf : parseJS parse data2 = .thrown) :
    readJSON hash parse st = (.value v, true) ∧
    readJSON hash parse st2 = (.thrown, false) := by
  constructor
  · simp [readJSON, hfile, hdig, hb, hmm, hbp]
  · rcases hdig2 with h | ⟨h, hok⟩
    · simp [readJSON, hfile2, h, hpf]
    · simp [readJSON, hfile2, h, hok, hpf]

/-- Concrete instance of the amended C2: a flipped digest sends the read
to the backup with a corruption log; an unparseable primary under a
matching digest throws. -/
theorem read_backup_fallback_on_mismatch_witness :
    readJSON (fun s => s) (fun s => if s = "good" then some 1 else none)
        ⟨some "good", some "flipped", some "good"⟩ = (.value 1, true) ∧
    readJSON (fun s => s) (fun s => if s = "good" then some 1 else none)
        ⟨some "bad", some "bad", some "good"⟩ = (.thrown, false) :=
  read_backup_fallback_on_mismatch (fun s => s)
    (fun s => if s = "good" then some 1 else none)
    ⟨some "good", some "flipped", some "good"⟩ ⟨some "bad", some "bad", some "good"⟩
    "good" "flipped" "good" "bad" "bad" 1
    (by rfl) (by rfl) (by decide) (by rfl) (by decide) (by rfl)
    (Or.inr ⟨rfl, by decide⟩) (by decide)

/-- C6, counterexample.  A successful `writePostsOptimized` over an
existing collection file: the claim says the previous content `"old"`
is copied to `path.backup` before the new version becomes visible, but
the optimized posts writers never touch the backup file — it stays
absent. -/
theorem posts_writers_skip_backup_cex :
    ((writePostsOptimized (fun _ => "new") (fun _ => "h") [] .success
        ⟨⟨some "old", some "d", none⟩, none, 0⟩).2.doc.backup = none) ∧
    (writePostsOptimized (fun _ => "new") (fun _ => "h") [] .success
        ⟨⟨some "old", some "d", none⟩, none, 0⟩).1.isOk = true := by
  decide

/-- The db-cache operations never change `posts.json.backup`. -/
theorem cache_ops_preserve_backup (ser : List Post → String) (hash : String → String)
    (parse : String → Option (List Post)) (op : DbOp) (st : DbState)
    (hca : op.isCacheAware = true) :
    (applyOp ser hash parse op st).2.doc.backup = st.doc.backup := by
  cases op with
  | wjson br posts => simp [DbOp.isCacheAware] at hca
  | wopt posts o => cases o <;> simp [applyOp, writePostsOptimized, invalidateCache]
  | create p o =>
    cases hf : st.doc.file with
    | none => simp [applyOp, atomicCreatePost, hf, invalidateCache]
    | some data =>
      cases hp : parsePostsJS parse data with
      | none => simp [applyOp, atomicCreatePost, hf, hp, invalidateCache]
      | some posts =>
        cases o <;> simp [applyOp, atomicCreatePost, hf, hp, invalidateCache]
  | update postId fn o =>
    cases hf : st.doc.file with
    | none => simp [applyOp, atomicUpdatePost, hf, invalidateCache]
    | some data =>
      cases hp : parsePostsJS parse data with
      | none => simp [applyOp, atomicUpdatePost, hf, hp, invalidateCache]
      | some posts =>
        cases hidx : findIndex (fun q => q.id == postId) posts with
        | none => simp [applyOp, atomicUpdatePost, hf, hp, hidx]
        | some idx =>
          cases o <;> simp [applyOp, atomicUpdatePost, hf, hp, hidx, invalidateCache]
  | delete postId o =>
    cases hf : st.doc.file with
    | none => simp [applyOp, atomicDeletePost, hf, invalidateCache]
    | some data =>
      cases hp : parsePostsJS parse data with
      | none => simp [applyOp, atomicDeletePost, hf, hp, invalidateCache]
      | some posts =>
        cases hidx : findIndex (fun q => q.id == postId) posts with
        | none => simp [applyOp, atomicDeletePost, hf, hp, hidx]
        | some idx =>
          cases o <;> simp [applyOp, atomicDeletePost, hf, hp, hidx, invalidateCache]

/-- C6, amended.  Only the generic `writeJSON` maintains the rolling
backup: on its locked path an existing file's content is copied to
`path.backup` before the new version is renamed into place; the
optimized posts writers (`writePostsOptimized` and the atomic mutators)
leave `posts.json.backup` exactly as it was. -/
theorem backup_written_only_by_writeJSON {α : Type} (serA : α → String)
    (ser : List Post → String) (hash : String → String)
    (parse : String → Option (List Post)) (data : α) (stD : DocState) (c : String)
    (posts : List Post) (p : Post) (postId : Nat) (fn : Post → Post)
    (o : WriteOutcome) (st : DbState)
    (hfile : stD.file = some c) :
    writeJSON serA hash .normal data stD =
      .ok ⟨some (serA data), some (hash (serA data)), some c⟩ ∧
    (writePostsOptimized ser hash posts o st).2.doc.backup = st.doc.backup ∧
    (atomicCreatePost ser hash parse p o st).2.doc.backup = st.doc.backup ∧
    (atomicUpdatePost ser hash parse postId fn o st).2.doc.backup = st.doc.backup ∧
    (atomicDeletePost ser hash parse postId o st).2.doc.backup = st.doc.backup :=
  ⟨by simp [writeJSON, backupStep, hfile],
   cache_ops_preserve_backup ser hash parse (.wopt posts o) st rfl,
   cache_ops_preserve_backup ser hash parse (.create p o) st rfl,
   cache_ops_preserve_backup ser hash parse (.update postId fn o) st rfl,
   cache_ops_preserve_backup ser hash parse (.delete postId o) st rfl⟩

/-- Concrete instance of the amended C6. -/
theorem backup_written_only_by_writeJSON_witness :
    writeJSON (fun _ : Nat => "new") (fun _ => "h") .normal 0 ⟨some "old", some "d", none⟩ =
      .ok ⟨some "new", some "h", some "old"⟩ ∧
    (writePostsOptimized (fun _ => "new") (fun _ => "h") [] .success
        ⟨⟨some "old", some "d", none⟩, none, 0⟩).2.doc.backup =
      (⟨⟨some "old", some "d", none⟩, none, 0⟩ : DbState).doc.backup ∧
    (atomicCreatePost (fun _ => "new") (fun _ => "h") (fun _ => some [])
        { id := 1, date := "2026-01-01" } .success
        ⟨⟨some "old", some "d", none⟩, none, 0⟩).2.doc.backup =
      (⟨⟨some "old", some "d", none⟩, none, 0⟩ : DbState).doc.backup ∧
    (atomicUpdatePost (fun _ => "new") (fun _ => "h") (fun _ => some []) 1 id .success
        ⟨⟨some "old", some "d", none⟩, none, 0⟩).2.doc.backup =
      (⟨⟨some "old", some "d", none⟩, none, 0⟩ : DbState).doc.backup ∧
    (atomicDeletePost (fun _ => "new") (fun _ => "h") (fun _ => some []) 1 .success
        ⟨⟨some "old", some "d", none⟩, none, 0⟩).2.doc.backup =
      (⟨⟨some "old", some "d", none⟩, none, 0⟩ : DbState).doc.backup :=
  backup_written_only_by_writeJSON (fun _ : Nat => "new") (fun _ => "new")
    (fun _ => "h") (fun _ => some []) 0 ⟨some "old", some "d", none⟩ "old"
    [] { id := 1, date := "2026-01-01" } 1 id .success
    ⟨⟨some "old", some "d", none⟩, none, 0⟩ (by rfl)

/-- C7, counterexample.  When lock acquisition fails and the direct
unlocked fallback write then also fails, `writeJSON` rethrows the
original lock-acquisition error to the caller — contradicting "never
thrown". -/
theorem write_lock_error_propagates_cex :
    writeJSON (fun _ : Nat => "p") (fun _ => "h") (.lockFail false) 0
        ⟨none, none, none⟩ = .error .lockTimeout := by
  rfl

/-- C7, amended.  On lock-acquisition failure `writeJSON` falls back to a
direct unlocked write of payload and digest (leaving a digest that
matches the file, with no backup copy), and the lock error is only
logged — unless the fallback write itself also fails, in which case the
original lock error is thrown. -/
theorem write_lock_fallback (ser : α → String) (hash : String → String)
    (data : α) (st : DocState) :
    writeJSON ser hash (.lockFail true) data st =
      .ok { st with file := some (ser data), digest := some (hash (ser data)) } ∧
    digestMatches hash ⟨some (ser data), some (hash (ser data)), st.backup⟩ ∧
    writeJSON ser hash (.lockFail false) data st = .error .lockTimeout :=
  ⟨rfl, ⟨ser data, rfl, rfl⟩, rfl⟩

/-- The first post of the C5 scenario: id 1 on 2026-01-02 at 09:00. -/
def scenFirst : Post := { id := 1, date := "2026-01-02", time := some "09:00" }

/-- The second post of the C5 scenario: id 2 on 2026-01-01 at 10:00. -/
def scenSecond : Post := { id := 2, date := "2026-01-01", time := some "10:00" }

/-- The empty database state: no files on disk, cold cache. -/
def emptyDb : DbState := ⟨⟨none, none, none⟩, none, 0⟩

/-- C5, counterexample.  A successful write of a timed `00:00` post
followed by a same-date all-day post persists them in that input order —
the comparator maps an absent time to `00:00`, so the tie is kept stable
and the all-day entry is *not* ordered before the timed one. -/
theorem all_day_not_before_timed_cex :
    (writePostsOptimized (fun _ => "s") (fun _ => "h")
        [{ id := 1, date := "2026-01-01", time := some "00:00" },
         { id := 2, date := "2026-01-01" }] .success emptyDb).1 =
      .okWrite [{ id := 1, date := "2026-01-01", time := some "00:00" },
                { id := 2, date := "2026-01-01" }] ∧
    isAllDayPost { id := 2, date := "2026-01-01" } = true ∧
    isAllDayPost { id := 1, date := "2026-01-01", time := some "00:00" } = false ∧
    ¬ allDayFirstWithinDate
        [{ id := 1, date := "2026-01-01", time := some "00:00" },
         { id := 2, date := "2026-01-01" }] := by
  decide

/-- C5, amended.  The persisted order is ascending by (date,
minutes-of-day) where an absent or empty time counts as `00:00`; entries
with equal keys — in particular an all-day entry and a timed `00:00`
entry on the same date — keep their input order (the sort is stable).
The claim's scenario holds: writing `[{id 1, 2026-01-02, 09:00}]` and
then creating `{id 2, 2026-01-01, 10:00}` makes the next read return
`[id 2, id 1]`. -/
theorem write_order_sorted_stable (ser : List Post → String)
    (hash : String → String) (parse : String → Option (List Post))
    (posts : List Post)
    (hrt : parsePostsJS parse (ser [scenFirst]) = some [scenFirst]) :
    List.Sorted postLE (sortPosts posts) ∧
    List.Perm (sortPosts posts) posts ∧
    (readPostsOptimized parse
        (runOps ser hash parse
          [.wopt [scenFirst] .success, .create scenSecond .success] emptyDb)).1 =
      .ok [scenSecond, scenFirst] := by
  refine ⟨List.sorted_insertionSort postLE posts, List.perm_insertionSort postLE posts, ?_⟩
  have hs : sortPosts [scenFirst, scenSecond] = [scenSecond, scenFirst] := by decide
  have h1 : runOps ser hash parse
      [.wopt [scenFirst] .success, .create scenSecond .success] emptyDb =
      (atomicCreatePost ser hash parse scenSecond .success
        ⟨⟨some (ser [scenFirst]), some (hash (ser [scenFirst])), none⟩,
         some [scenFirst], 1⟩).2 := rfl
  rw [h1]
  simp [atomicCreatePost, hrt, hs, readPostsOptimized]

/-- Concrete instance of the amended C5, with a toy serializer whose
parse inverts it on the scenario collection. -/
theorem write_order_sorted_stable_witness :
    List.Sorted postLE (sortPosts []) ∧
    List.Perm (sortPosts []) [] ∧
    (readPostsOptimized (fun s => if s = "S" then some [scenFirst] else none)
        (runOps (fun _ => "S") (fun _ => "h")
          (fun s => if s = "S" then some [scenFirst] else none)
          [.wopt [scenFirst] .success, .create scenSecond .success] emptyDb)).1 =
      .ok [scenSecond, scenFirst] :=
  write_order_sorted_stable (fun _ => "S") (fun _ => "h")
    (fun s => if s = "S" then some [scenFirst] else none) [] (by decide)

/-- C8, counterexample.  An entry that itself carries `id` and `time`
properties: `Object.assign({id: genId(), time: now}, entry)` lets the
caller-supplied fields override the generated ones, so the appended
record does not carry the freshly generated id or the server
timestamp. -/
theorem append_caller_fields_override_cex :
    ((appendLog (fun r => r.actor) "fresh-id" 123
        { id := some "spoofed", time := some 7, actor := "alice" } "").1.id =
      "spoofed") ∧
    ((appendLog (fun r => r.actor) "fresh-id" 123
        { id := some "spoofed", time := some 7, actor := "alice" } "").1.time = 7) := by
  decide

/-- C8, amended.  `appendLog` serializes exactly one line and appends it;
the generated id and server timestamp are *defaults*: they are assigned
to the record exactly when the caller's entry does not itself carry an
`id` / `time` property, and a caller-supplied `id` or `time` overrides
them. -/
theorem append_one_line_generated_defaults (serRec : LogRecord → String)
    (generatedId : String) (now : Nat) (e : LogEntry) (logFile : String)
    (hnl : Char.ofNat 10 ∉ (serRec (mkLogRecord generatedId now e)).data) :
    (appendLog serRec generatedId now e logFile).2 =
      logFile ++ (serRec (mkLogRecord generatedId now e) ++ "\n") ∧
    (serRec (mkLogRecord generatedId now e) ++ "\n").data.count (Char.ofNat 10) = 1 ∧
    (appendLog serRec generatedId now e logFile).1.id = e.id.getD generatedId ∧
    (appendLog serRec generatedId now e logFile).1.time = e.time.getD now ∧
    (e.id = none → (appendLog serRec generatedId now e logFile).1.id = generatedId) ∧
    (e.time = none → (appendLog serRec generatedId now e logFile).1.time = now) := by
  refine ⟨rfl, ?_, rfl, rfl, ?_, ?_⟩
  · rw [String.data_append, List.count_append, List.count_eq_zero.mpr hnl]
    decide
  · intro h; simp [appendLog, mkLogRecord, h]
  · intro h; simp [appendLog, mkLogRecord, h]

/-- Concrete instance of the amended C8: an ordinary entry without id or
time receives the generated id and the server timestamp. -/
theorem append_one_line_generated_defaults_witness :
    (appendLog (fun r => r.actor) "fresh-id" 123 { actor := "alice" } "").2 =
      "" ++ ((fun (r : LogRecord) => r.actor) (mkLogRecord "fresh-id" 123 { actor := "alice" }) ++ "\n") ∧
    ((fun (r : LogRecord) => r.actor) (mkLogRecord "fresh-id" 123 { actor := "alice" }) ++ "\n").data.count
      (Char.ofNat 10) = 1 ∧
    (appendLog (fun r => r.actor) "fresh-id" 123 { actor := "alice" } "").1.id =
      (none : Option String).getD "fresh-id" ∧
    (appendLog (fun r => r.actor) "fresh-id" 123 { actor := "alice" } "").1.time =
      (none : Option Nat).getD 123 ∧
    ((none : Option String) = none →
      (appendLog (fun r => r.actor) "fresh-id" 123 { actor := "alice" } "").1.id = "fresh-id") ∧
    ((none : Option Nat) = none →
      (appendLog (fun r => r.actor) "fresh-id" 123 { actor := "alice" } "").1.time = 123) :=
  append_one_line_generated_defaults (fun r => r.actor) "fresh-id" 123
    { actor := "alice" } "" (by decide)

theorem find_none_of_key_absent (tbl : List (String × Session)) (token : String)
    (h : ∀ ts ∈ tbl, ts.1 ≠ token) :
    tbl.find? (fun ts => ts.1 == token) = none := by
  induction tbl with
  | nil => rfl
  | cons hd tl ih =>
    have hhd : (hd.1 == token) = false := by
      simpa using h hd (List.mem_cons_self hd tl)
    simp [List.find?, hhd, ih fun ts hts => h ts (List.mem_cons_of_mem hd hts)]

/-- In a table with distinct tokens, removing a user's sessions leaves no
entry under a token that belonged to that user. -/
theorem filter_kills_token (tbl : List (String × Session)) (u token : String)
    (s : Session) (hnd : (tbl.map Prod.fst).Nodup)
    (hmem : (token, s) ∈ tbl) (hu : s.username = u) :
    (tbl.filter fun ts => ts.2.username != u).find? (fun ts => ts.1 == token) = none := by
  induction tbl with
  | nil => cases hmem
  | cons hd tl ih =>
    rw [List.map_cons, List.nodup_cons] at hnd
    rcases List.mem_cons.mp hmem with heq | hmem2
    · have hk : hd.1 = token := by rw [← heq]
      have habs : ∀ ts ∈ tl.filter fun ts => ts.2.username != u, ts.1 ≠ token := by
        intro ts hts hcontra
        exact hnd.1 (hk ▸ hcontra ▸ List.mem_map_of_mem Prod.fst (List.mem_of_mem_filter hts))
      have hdrop : (hd.2.username != u) = false := by
        rw [← heq]; simp [hu]
      have hfe : (hd :: tl).filter (fun ts => ts.2.username != u) =
          tl.filter fun ts => ts.2.username != u := by
        simp [List.filter_cons, hdrop]
      rw [hfe]
      exact find_none_of_key_absent _ token habs
    · have hne : (hd.1 == token) = false := by
        have : hd.1 ≠ token := fun hcontra =>
          hnd.1 (hcontra ▸ List.mem_map_of_mem Prod.fst hmem2)
        simpa using this
      by_cases hkeep : (hd.2.username != u) = true
      · simp only [List.filter_cons, hkeep, if_pos rfl, List.find?, hne]
        exact ih hnd.2 hmem2
      · simp only [List.filter_cons, if_neg hkeep]
        exact ih hnd.2 hmem2

/-- C9, counterexample.  `persistSessions` wraps its `writeJSON` call in
a try/catch that only logs a failure, so when the awaited write fails
(`ok = false`), `revokeSessionsForUser` still returns normally with the
user's sessions removed from the in-memory table while the disk mirror
still holds the old session — the removal has *not* been persisted to
disk at the moment the call returns. -/
theorem revoke_persist_failure_cex :
    (revokeSessionsForUser "alice" false
        ⟨[("tok", ⟨"alice", "admin", 99⟩)],
         some [⟨"tok", "alice", "admin", 99⟩]⟩).sessions = [] ∧
    (revokeSessionsForUser "alice" false
        ⟨[("tok", ⟨"alice", "admin", 99⟩)],
         some [⟨"tok", "alice", "admin", 99⟩]⟩).disk =
      some [⟨"tok", "alice", "admin", 99⟩] := by
  decide

/-- C9, amended.  `revokeSessionsForUser(username)`: after the call
returns, no session of that user remains in the session table, and a
subsequent `requireAuth` session lookup with any token that previously
belonged to the user — the table's tokens being unique `Map` keys —
answers "invalid or expired", at every time; the model is sequential, so
"after return" means exactly this post-state: there is no window in
which the old token is still accepted.  The removal is mirrored to disk
when the awaited `writeJSON` succeeds; a failing write is caught and
only logged by `persistSessions`, so the disk mirror is only guaranteed
to hold the filtered, user-free table on a successful persist
(`ok = true`). -/
theorem revoke_sessions_then_reject (u : String) (ok : Bool) (st : AuthState)
    (token : String) (s : Session) (now : Nat)
    (hnd : (st.sessions.map Prod.fst).Nodup)
    (hmem : (token, s) ∈ st.sessions) (hu : s.username = u) :
    (∀ ts ∈ (revokeSessionsForUser u ok st).sessions, ts.2.username ≠ u) ∧
    (ok = true → (revokeSessionsForUser u ok st).disk =
      some (sessionsArray (revokeSessionsForUser u ok st).sessions)) ∧
    (ok = true → ∀ ps ∈ ((revokeSessionsForUser u ok st).disk.getD []),
      ps.username ≠ u) ∧
    requireAuthToken (revokeSessionsForUser u ok st) token now = .unauthorized := by
  have hsess : (revokeSessionsForUser u ok st).sessions =
      st.sessions.filter fun ts => ts.2.username != u := by
    cases ok <;> rfl
  refine ⟨?_, ?_, ?_, ?_⟩
  · intro ts hts
    rw [hsess] at hts
    simpa using (List.mem_filter.mp hts).2
  · intro hok; subst hok; rfl
  · intro hok ps hps
    subst hok
    have : (revokeSessionsForUser u true st).disk =
        some (sessionsArray (st.sessions.filter fun ts => ts.2.username != u)) := rfl
    rw [this] at hps
    simp only [Option.getD_some, sessionsArray, List.mem_map] at hps
    obtain ⟨ts, hts, hps2⟩ := hps
    have := (List.mem_filter.mp hts).2
    rw [← hps2]
    simpa using this
  · unfold requireAuthToken lookupSession
    rw [hsess, filter_kills_token st.sessions u token s hnd hmem hu]
    rfl

/-- Concrete instance of C9: revoking alice's only session makes her
prior token invalid and persists the empty table. -/
theorem revoke_sessions_then_reject_witness :
    (∀ ts ∈ (revokeSessionsForUser "alice" true
        ⟨[("tok", ⟨"alice", "admin", 99⟩)], none⟩).sessions, ts.2.username ≠ "alice") ∧
    (true = true → (revokeSessionsForUser "alice" true
        ⟨[("tok", ⟨"alice", "admin", 99⟩)], none⟩).disk =
      some (sessionsArray (revokeSessionsForUser "alice" true
        ⟨[("tok", ⟨"alice", "admin", 99⟩)], none⟩).sessions)) ∧
    (true = true → ∀ ps ∈ ((revokeSessionsForUser "alice" true
        ⟨[("tok", ⟨"alice", "admin", 99⟩)], none⟩).disk.getD []),
      ps.username ≠ "alice") ∧
    requireAuthToken (revokeSessionsForUser "alice" true
        ⟨[("tok", ⟨"alice", "admin", 99⟩)], none⟩) "tok" 5 = .unauthorized :=
  revoke_sessions_then_reject "alice" true
    ⟨[("tok", ⟨"alice", "admin", 99⟩)], none⟩ "tok" ⟨"alice", "admin", 99⟩ 5
    (by decide) (by decide) (by rfl)

end ContentPlanner
